import Mathlib

set_option maxHeartbeats 1000000

/- Shallow embedding of the redux-source-reading repository: createStore
  (second document of src/src-withComment/applyMiddleware.js),
  combineReducers (src/src-withComment/combineReducers.js) and compose
  (src/unnamed/part_001). Mutable JavaScript locals become fields of an
  explicit state record, the two listener arrays (which are compared by
  reference in ensureCanMutateNextListeners) live in a small heap of arrays
  addressed by numeric references, and code that throws returns Except. -/

/-- JSVal models the JavaScript values handled by the store: the absent
sentinel undefined, null, numbers, strings, and objects. An object carries a
flag recording whether lodash isPlainObject accepts it, plus its fields. -/
inductive JSVal where
  | undef
  | nullv
  | num (n : Int)
  | str (s : String)
  | obj (plain : Bool) (fields : List (String × JSVal))

/-- Property lookup on a field list; a missing key reads as undefined. -/
def lookupField : List (String × JSVal) → String → JSVal
  | [], _ => JSVal.undef
  | (k, v) :: rest, key => if k = key then v else lookupField rest key

/-- Property access value[key]; non-objects read as undefined here (the only
accesses the embedded code performs are on validated plain objects). -/
def getField : JSVal → String → JSVal
  | JSVal.obj _ fields, key => lookupField fields key
  | _, _ => JSVal.undef

/-- Test used by dispatch at line 237: isPlainObject(action). -/
def isPlainObject : JSVal → Bool
  | JSVal.obj plain _ => plain
  | _ => false

/-- Test used by dispatch at line 244: typeof action.type === 'undefined'. -/
def actionTypeUndefined (action : JSVal) : Bool :=
  match getField action "type" with
  | JSVal.undef => true
  | _ => false

/-- Strict comparison action.type === t for a string literal t. -/
def typeEquals (action : JSVal) (t : String) : Bool :=
  match getField action "type" with
  | JSVal.str s => s == t
  | _ => false

/-- Reducers are functions of state and action; a throwing reducer is
modelled by the error branch of Except. -/
abbrev Reducer := JSVal → JSVal → Except String JSVal

/-- Heap update for the listener-array heap: write list v into cell i. -/
def hupd (h : Nat → List Nat) (i : Nat) (v : List Nat) : Nat → List Nat :=
  fun j => if j = i then v else h j

/-- Store is the closure state of createStore: currentState, the two
listener-array references currentListeners and nextListeners (listener
arrays live in heap, addressed by references so that the === comparison in
ensureCanMutateNextListeners is meaningful; fresh bounds the allocated
cells), and the isDispatching guard. Listeners themselves are identified by
numeric ids. currentReducer is passed explicitly to dispatch instead of
being stored, since no embedded claim exercises replaceReducer. -/
structure Store where
  heap : Nat → List Nat
  fresh : Nat
  curRef : Nat
  nextRef : Nat
  currentState : JSVal
  isDispatching : Bool

/-- Well-formedness of a store: both array references point below the
allocation bound, so a freshly allocated cell is distinct from them. -/
abbrev StoreWF (s : Store) : Prop :=
  s.curRef < s.fresh ∧ s.nextRef < s.fresh

/-- Lines 114-118: if nextListeners === currentListeners, replace
nextListeners with a copy (a freshly allocated cell with the same
contents), so the array the in-flight dispatch iterates is never mutated. -/
def ensureCanMutateNextListeners (s : Store) : Store :=
  if s.nextRef = s.curRef then
    { s with
      heap := hupd s.heap s.fresh (s.heap s.curRef)
      nextRef := s.fresh
      fresh := s.fresh + 1 }
  else s

/-- Lines 173-184: subscribe appends the listener to nextListeners after
ensuring it is safe to mutate. The callability check on the listener is
vacuous here because listener ids always denote functions; the returned
unsubscribe closure is modelled by the unsubscribe function below together
with its isSubscribed flag. -/
def subscribe (listener : Nat) (s : Store) : Store :=
  let t := ensureCanMutateNextListeners s
  { t with heap := hupd t.heap t.nextRef (t.heap t.nextRef ++ [listener]) }

/-- JavaScript Array.prototype.indexOf: first index of l, or -1. -/
def jsIndexOf : List Nat → Nat → Int
  | [], _ => -1
  | x :: xs, l =>
    if x = l then 0
    else
      let r := jsIndexOf xs l
      if r < 0 then -1 else r + 1

/-- JavaScript splice(start, 1): remove one element at start, where a
negative start counts from the end (clamped at 0). -/
def jsSpliceRemove (lst : List Nat) (start : Int) : List Nat :=
  let actual : Nat :=
    if start < 0 then ((lst.length : Int) + start).toNat
    else min start.toNat lst.length
  lst.take actual ++ lst.drop (actual + 1)

/-- Lines 186-196: one invocation of an unsubscribe closure. The Bool
argument is the isSubscribed flag captured by the closure; the result pairs
the updated flag with the updated store. A second call finds the flag
false and returns immediately. -/
def unsubscribe (listener : Nat) (isSubscribed : Bool) (s : Store) :
    Bool × Store :=
  if isSubscribed = false then (false, s)
  else
    let t := ensureCanMutateNextListeners s
    let lst := t.heap t.nextRef
    let index := jsIndexOf lst listener
    (false, { t with heap := hupd t.heap t.nextRef (jsSpliceRemove lst index) })

/-- Actions a listener may take on the store while it is being notified:
subscribe a listener, or run a still-subscribed unsubscribe closure. -/
inductive ListenerOp where
  | sub (l : Nat)
  | unsub (l : Nat)

/-- Effect of one listener-issued operation on the store. -/
def applyOp (o : ListenerOp) (s : Store) : Store :=
  match o with
  | ListenerOp.sub l => subscribe l s
  | ListenerOp.unsub l => (unsubscribe l true s).2

/-- Effect of the whole body of a listener, as a sequence of operations. -/
def runOps (ops : List ListenerOp) (s : Store) : Store :=
  ops.foldl (fun t o => applyOp o t) s

/-- Lines 267-271: the notification loop over the snapshot array snapRef,
reading the array from the heap afresh at every iteration exactly as the
JavaScript loop reads listeners[i] from the array object. env gives the
body of each listener. The returned trace records, in order, each invoked
listener id together with the store state at the moment of its invocation.
The fuel argument is instantiated with the length of the snapshot at entry,
which is exact because the copy-on-write discipline proved below keeps the
snapshot cell unchanged for the whole loop. -/
def notifyLoop (env : Nat → List ListenerOp) (snapRef : Nat) :
    Nat → Nat → Store → Store × List (Nat × Store)
  | 0, _, s => (s, [])
  | fuel + 1, i, s =>
    let lst := s.heap snapRef
    if h : i < lst.length then
      let l := lst.get ⟨i, h⟩
      let s2 := runOps (env l) s
      let r := notifyLoop env snapRef fuel (i + 1) s2
      (r.1, (l, s) :: r.2)
    else (s, [])

/-- Errors thrown by dispatch, in source order: the plain-object check, the
undefined-type check, the reentrancy guard, and a propagated reducer
exception. -/
inductive DispatchError where
  | notPlainObject
  | undefinedTypeProperty
  | reducersMayNotDispatch
  | reducerThrew (msg : String)
deriving DecidableEq

/-- Outcome of one dispatch call: the resulting store, the returned action
or thrown error, the notification trace (invoked listener ids with the
store seen at each invocation), and one entry per reducer invocation
recording the store at the moment the reducer was entered together with
the action passed to it. The last two fields instrument the embedding so
that ordering and guard facts can be stated; they add no behavior. -/
structure DispatchResult where
  store : Store
  result : Except DispatchError JSVal
  trace : List (Nat × Store)
  reducerCalls : List (Store × JSVal)

/-- Lines 236-274: dispatch. Validation in source order, then the guarded
reducer call with the guard cleared on both the normal and the throwing
path (the try/finally), then the snapshot currentListeners = nextListeners
and the notification loop, then return of the action. -/
def dispatch (reducer : Reducer) (env : Nat → List ListenerOp)
    (action : JSVal) (s : Store) : DispatchResult :=
  if isPlainObject action = false then
    { store := s, result := Except.error DispatchError.notPlainObject
      trace := [], reducerCalls := [] }
  else if actionTypeUndefined action = true then
    { store := s, result := Except.error DispatchError.undefinedTypeProperty
      trace := [], reducerCalls := [] }
  else if s.isDispatching = true then
    { store := s, result := Except.error DispatchError.reducersMayNotDispatch
      trace := [], reducerCalls := [] }
  else
    let sDuring := { s with isDispatching := true }
    match reducer s.currentState action with
    | Except.error msg =>
      { store := { sDuring with isDispatching := false }
        result := Except.error (DispatchError.reducerThrew msg)
        trace := [], reducerCalls := [(sDuring, action)] }
    | Except.ok nextState =>
      let s1 := { sDuring with
        currentState := nextState
        isDispatching := false
        curRef := sDuring.nextRef }
      let snapRef := sDuring.nextRef
      let r := notifyLoop env snapRef ((s1.heap snapRef).length) 0 s1
      { store := r.1, result := Except.ok action
        trace := r.2, reducerCalls := [(sDuring, action)] }

/-- Line 49: the reserved INIT action type. -/
def initActionType : String := "@@redux/INIT"

/-- Line 337: the action dispatched during construction. -/
def initAction : JSVal := JSVal.obj true [("type", JSVal.str initActionType)]

/-- Lines 108-112: the store state right before the construction-time
dispatch: currentState = preloadedState, one empty listener array aliased
by both references, guard clear. -/
def initialStore (preloadedState : JSVal) : Store :=
  { heap := fun _ => [], fresh := 1, curRef := 0, nextRef := 0
    currentState := preloadedState, isDispatching := false }

/-- Lines 77-346 without the enhancer overloads (the claims treated here
pass no enhancer, and reducers are functions by construction): createStore
initializes the closure state and performs the single internal dispatch of
the INIT action. -/
def createStore (reducer : Reducer) (preloadedState : JSVal) :
    DispatchResult :=
  dispatch reducer (fun _ => []) initAction (initialStore preloadedState)

/-- Lines 125-127: getState returns currentState, unconditionally. -/
def getState (s : Store) : JSVal := s.currentState

/-- Successor on a number; the counter scenario only ever adds 1 to a
numeric state, so other value shapes are left untouched. -/
def jsPlusOne : JSVal → JSVal
  | JSVal.num n => JSVal.num (n + 1)
  | v => v

/-- The counter reducer of the specification scenario:
(s = 0, a) => a.type === 'INC' ? s + 1 : s, with the default parameter
applying exactly when the incoming state is undefined. -/
def counterReducer : Reducer := fun s a =>
  let s0 := match s with
    | JSVal.undef => JSVal.num 0
    | v => v
  Except.ok (if typeEquals a "INC" then jsPlusOne s0 else s0)

/-- The INC action of the scenario. -/
def incAction : JSVal := JSVal.obj true [("type", JSVal.str "INC")]

/-- The scenario: create the counter store with no preloaded state,
dispatch INC three times, read the state. -/
def counterScenarioState : JSVal :=
  let d0 := createStore counterReducer JSVal.undef
  let d1 := dispatch counterReducer (fun _ => []) incAction d0.store
  let d2 := dispatch counterReducer (fun _ => []) incAction d1.store
  let d3 := dispatch counterReducer (fun _ => []) incAction d2.store
  getState d3.store

/-- Lines 14-24 of src/unnamed/part_001: compose. The variadic JavaScript
function becomes a function on a list; funcs.reduce without a seed is a
left fold over the tail seeded with the head. JavaScript is untyped, so a
single type stands for all values, and the multi-argument case of the
rightmost function is represented by a single (possibly tupled) value. -/
def compose {α : Type} : List (α → α) → α → α
  | [] => fun arg => arg
  | [f] => f
  | f :: rest => rest.foldl (fun a b => fun x => a (b x)) f

/-- Claim C8: compose of no functions is the identity, compose of one
function is that function itself, and compose of three functions nests
them right to left. -/
theorem claim_C8 :
    (∀ (α : Type) (x : α), compose [] x = x) ∧
    (∀ (α : Type) (f : α → α), compose [f] = f) ∧
    (∀ (α : Type) (f g h : α → α) (x : α), compose [f, g, h] x = f (g (h x))) :=
  ⟨fun _ _ => rfl, fun _ _ => rfl, fun _ _ _ _ _ => rfl⟩

/-- Claim C4: a non-plain-object action fails dispatch with the
plain-object error regardless of its type field (record-shape validation
comes first), and a plain object whose type is undefined fails with the
undefined-type error; in both cases the returned store is exactly the
input store, no listener is notified and the reducer is never invoked
(the result does not depend on the reducer, and reducerCalls is empty). -/
theorem claim_C4 :
    (∀ (r : Reducer) (env : Nat → List ListenerOp) (a : JSVal) (s : Store),
      isPlainObject a = false →
      dispatch r env a s =
        { store := s, result := Except.error DispatchError.notPlainObject
          trace := [], reducerCalls := [] }) ∧
    (∀ (r : Reducer) (env : Nat → List ListenerOp) (a : JSVal) (s : Store),
      isPlainObject a = true → actionTypeUndefined a = true →
      dispatch r env a s =
        { store := s, result := Except.error DispatchError.undefinedTypeProperty
          trace := [], reducerCalls := [] }) := by
  constructor
  · intro r env a s h
    simp [dispatch, h]
  · intro r env a s h1 h2
    simp [dispatch, h1, h2]

/-- Witness for claim C4 at a bare number and at an untyped plain object,
showing also that the two throwing reducers involved are never consulted. -/
theorem claim_C4_witness :
    dispatch (fun _ _ => Except.error "boom") (fun _ => []) (JSVal.num 5)
        (initialStore JSVal.undef) =
      { store := initialStore JSVal.undef
        result := Except.error DispatchError.notPlainObject
        trace := [], reducerCalls := [] } ∧
    dispatch (fun _ _ => Except.error "boom") (fun _ => [])
        (JSVal.obj true []) (initialStore JSVal.undef) =
      { store := initialStore JSVal.undef
        result := Except.error DispatchError.undefinedTypeProperty
        trace := [], reducerCalls := [] } :=
  ⟨claim_C4.1 _ _ _ _ rfl, claim_C4.2 _ _ _ _ rfl rfl⟩

/-- A store whose dispatch-guard is set, as it is while a reducer runs. -/
def dispatchGuardStore : Store :=
  { heap := fun _ => [], fresh := 1, curRef := 0, nextRef := 0
    currentState := JSVal.num 7, isDispatching := true }

/-- Claim C5 counterexample: on a store whose dispatch-guard is set (the
situation while a reducer computation is in progress), getState does not
fail; it returns currentState normally. The source getState (lines
125-127) is a bare return of currentState with no isDispatching check, so
no failing path exists, contradicting the claim that it fails whenever the
guard is set. -/
theorem claim_C5_counterexample :
    dispatchGuardStore.isDispatching = true ∧
    getState dispatchGuardStore = JSVal.num 7 :=
  ⟨rfl, rfl⟩

/-- Claim C5 as amended: getState returns currentState verbatim and is
insensitive to the dispatch-guard; it never fails, in particular not while
a reducer computation is in progress. -/
theorem claim_C5_amended :
    ∀ s : Store,
      getState s = s.currentState ∧
      getState { s with isDispatching := true } = getState s :=
  fun _ => ⟨rfl, rfl⟩

/-- Claim C1: construction with no enhancer performs exactly one internal
dispatch, of the reserved INIT action, against the preloaded state (the
instrumented reducerCalls list is exactly that one call), so the state
immediately after construction is the reducer applied to the preloaded
state and INIT; and the counter scenario yields 3 after three INC
dispatches. -/
theorem claim_C1 :
    (∀ (r : Reducer) (P v : JSVal), r P initAction = Except.ok v →
      (createStore r P).store.currentState = v ∧
      (createStore r P).reducerCalls.map (fun c => (c.1.currentState, c.2)) =
        [(P, initAction)] ∧
      (createStore r P).result = Except.ok initAction) ∧
    counterScenarioState = JSVal.num 3 := by
  refine ⟨?_, rfl⟩
  intro r P v H
  simp only [initAction, initActionType] at H
  simp [createStore, dispatch, initialStore, initAction, isPlainObject,
    actionTypeUndefined, getField, lookupField, initActionType, H, notifyLoop]

/-- Witness for claim C1: the counter reducer with no preloaded state
produces initial state 0 from the single INIT dispatch. -/
theorem claim_C1_witness :
    (createStore counterReducer JSVal.undef).store.currentState =
      JSVal.num 0 :=
  (claim_C1.1 counterReducer JSVal.undef (JSVal.num 0) rfl).1

/-- Copy-on-write never touches the dispatch-guard. -/
theorem ensure_isDispatching (s : Store) :
    (ensureCanMutateNextListeners s).isDispatching = s.isDispatching := by
  unfold ensureCanMutateNextListeners
  split <;> rfl

/-- Listener-issued subscribe and unsubscribe never touch the guard. -/
theorem applyOp_isDispatching (o : ListenerOp) (s : Store) :
    (applyOp o s).isDispatching = s.isDispatching := by
  cases o with
  | sub l =>
    simp [applyOp, subscribe, ensure_isDispatching]
  | unsub l =>
    simp [applyOp, unsubscribe, ensure_isDispatching]

/-- A whole listener body never touches the guard. -/
theorem runOps_isDispatching (ops : List ListenerOp) (s : Store) :
    (runOps ops s).isDispatching = s.isDispatching := by
  induction ops generalizing s with
  | nil => rfl
  | cons o rest ih =>
    simp only [runOps, List.foldl_cons]
    rw [show List.foldl (fun t o => applyOp o t) (applyOp o s) rest =
      runOps rest (applyOp o s) from rfl]
    rw [ih, applyOp_isDispatching]

/-- During the notification loop the guard stays clear: the final store and
the store seen by every invoked listener have isDispatching = false,
provided the loop is entered with the guard clear. -/
theorem notifyLoop_isDispatching (env : Nat → List ListenerOp)
    (snapRef : Nat) :
    ∀ (fuel i : Nat) (s : Store), s.isDispatching = false →
      (notifyLoop env snapRef fuel i s).1.isDispatching = false ∧
      ∀ e ∈ (notifyLoop env snapRef fuel i s).2, e.2.isDispatching = false := by
  intro fuel
  induction fuel with
  | zero =>
    intro i s hs
    simp [notifyLoop, hs]
  | succ fuel ih =>
    intro i s hs
    simp only [notifyLoop]
    by_cases h : i < (s.heap snapRef).length
    · rw [dif_pos h]
      have hs2 : (runOps (env ((s.heap snapRef).get ⟨i, h⟩)) s).isDispatching
          = false := by
        rw [runOps_isDispatching]; exact hs
      obtain ⟨hA, hB⟩ := ih (i + 1) _ hs2
      refine ⟨hA, ?_⟩
      intro e he
      simp only [List.mem_cons] at he
      rcases he with he | he
      · rw [he]; exact hs
      · exact hB e he
    · rw [dif_neg h]
      simp [hs]

/-- Claim C3: the reentrancy guard of dispatch. First, a dispatch arriving
while the guard is set (that is, while a reducer call is in progress)
fails with the reentrancy error and changes nothing. Second, when the
reducer throws, the guard is still cleared (the try/finally), the state is
unchanged and the exception propagates. Third, whenever the reducer is
invoked the guard is already set. Fourth, every listener in the
notification phase observes a store with the guard clear, and fifth, a
dispatch against any store with the guard clear never fails with the
reentrancy error, so a nested dispatch from a listener cannot hit it.
Sixth, from a guard-clear store every exit of dispatch leaves the guard
clear. -/
theorem claim_C3 :
    (∀ (r : Reducer) (env : Nat → List ListenerOp) (a : JSVal) (s : Store),
      isPlainObject a = true → actionTypeUndefined a = false →
      s.isDispatching = true →
      dispatch r env a s =
        { store := s, result := Except.error DispatchError.reducersMayNotDispatch
          trace := [], reducerCalls := [] }) ∧
    (∀ (r : Reducer) (env : Nat → List ListenerOp) (a : JSVal) (s : Store)
        (msg : String),
      isPlainObject a = true → actionTypeUndefined a = false →
      s.isDispatching = false → r s.currentState a = Except.error msg →
      (dispatch r env a s).store.isDispatching = false ∧
      (dispatch r env a s).store.currentState = s.currentState ∧
      (dispatch r env a s).result =
        Except.error (DispatchError.reducerThrew msg)) ∧
    (∀ (r : Reducer) (env : Nat → List ListenerOp) (a : JSVal) (s : Store),
      ∀ c ∈ (dispatch r env a s).reducerCalls, c.1.isDispatching = true) ∧
    (∀ (r : Reducer) (env : Nat → List ListenerOp) (a : JSVal) (s : Store),
      ∀ e ∈ (dispatch r env a s).trace, e.2.isDispatching = false) ∧
    (∀ (r : Reducer) (env : Nat → List ListenerOp) (a : JSVal) (s : Store),
      s.isDispatching = false →
      (dispatch r env a s).result ≠
        Except.error DispatchError.reducersMayNotDispatch) ∧
    (∀ (r : Reducer) (env : Nat → List ListenerOp) (a : JSVal) (s : Store),
      s.isDispatching = false →
      (dispatch r env a s).store.isDispatching = false) := by
  refine ⟨?_, ?_, ?_, ?_, ?_, ?_⟩
  · intro r env a s h1 h2 h3
    simp [dispatch, h1, h2, h3]
  · intro r env a s msg h1 h2 h3 h4
    simp [dispatch, h1, h2, h3, h4]
  · intro r env a s c hc
    by_cases h1 : isPlainObject a = false
    · simp [dispatch, h1] at hc
    · by_cases h2 : actionTypeUndefined a = true
      · simp [dispatch, h1, h2] at hc
      · by_cases h3 : s.isDispatching = true
        · simp [dispatch, h1, h2, h3] at hc
        · cases hred : r s.currentState a with
          | error msg =>
            simp [dispatch, h1, h2, h3, hred] at hc
            rw [hc]
          | ok ns =>
            simp [dispatch, h1, h2, h3, hred] at hc
            rw [hc]
  · intro r env a s e he
    by_cases h1 : isPlainObject a = false
    · simp [dispatch, h1] at he
    · by_cases h2 : actionTypeUndefined a = true
      · simp [dispatch, h1, h2] at he
      · by_cases h3 : s.isDispatching = true
        · simp [dispatch, h1, h2, h3] at he
        · cases hred : r s.currentState a with
          | error msg => simp [dispatch, h1, h2, h3, hred] at he
          | ok ns =>
            simp only [dispatch, h1, h2, h3, hred] at he
            exact (notifyLoop_isDispatching env _ _ 0 _ rfl).2 e
              (by simpa using he)
  · intro r env a s h3 hcon
    by_cases h1 : isPlainObject a = false
    · simp [dispatch, h1] at hcon
    · by_cases h2 : actionTypeUndefined a = true
      · simp [dispatch, h1, h2] at hcon
      · cases hred : r s.currentState a with
        | error msg => simp [dispatch, h1, h2, h3, hred] at hcon
        | ok ns => simp [dispatch, h1, h2, h3, hred] at hcon
  · intro r env a s h3
    by_cases h1 : isPlainObject a = false
    · simp [dispatch, h1, h3]
    · by_cases h2 : actionTypeUndefined a = true
      · simp [dispatch, h1, h2, h3]
      · cases hred : r s.currentState a with
        | error msg => simp [dispatch, h1, h2, h3, hred]
        | ok ns =>
          simp only [dispatch, h1, h2, h3, hred]
          exact (notifyLoop_isDispatching env _ _ 0 _ rfl).1

/-- Witness for claim C3: the reentrancy error fires on a store whose
guard is set, and a throwing reducer leaves the guard clear, the state
untouched and the exception propagated. -/
theorem claim_C3_witness :
    dispatch counterReducer (fun _ => []) incAction dispatchGuardStore =
      { store := dispatchGuardStore
        result := Except.error DispatchError.reducersMayNotDispatch
        trace := [], reducerCalls := [] } ∧
    (dispatch (fun _ _ => Except.error "boom") (fun _ => []) incAction
        (initialStore (JSVal.num 1))).store.isDispatching = false ∧
    (dispatch (fun _ _ => Except.error "boom") (fun _ => []) incAction
        (initialStore (JSVal.num 1))).store.currentState = JSVal.num 1 ∧
    (dispatch (fun _ _ => Except.error "boom") (fun _ => []) incAction
        (initialStore (JSVal.num 1))).result =
      Except.error (DispatchError.reducerThrew "boom") :=
  ⟨claim_C3.1 counterReducer (fun _ => []) incAction dispatchGuardStore
      rfl rfl rfl,
    (claim_C3.2.1 (fun _ _ => Except.error "boom") (fun _ => []) incAction
      (initialStore (JSVal.num 1)) "boom" rfl rfl rfl rfl).1,
    (claim_C3.2.1 (fun _ _ => Except.error "boom") (fun _ => []) incAction
      (initialStore (JSVal.num 1)) "boom" rfl rfl rfl rfl).2.1,
    (claim_C3.2.1 (fun _ _ => Except.error "boom") (fun _ => []) incAction
      (initialStore (JSVal.num 1)) "boom" rfl rfl rfl rfl).2.2⟩

/-- Reading a heap cell other than the updated one is unchanged. -/
theorem hupd_ne (h : Nat → List Nat) (i : Nat) (v : List Nat) (j : Nat)
    (hne : j ≠ i) : hupd h i v j = h j := by
  unfold hupd
  rw [if_neg hne]

/-- Invariant holding throughout a notification phase over snapshot cell
snapRef with snapshot contents L: currentListeners still references the
snapshot cell, the cell still holds L, both references are within the
allocation bound, and the dispatch-guard is clear. -/
def NotifyInv (snapRef : Nat) (L : List Nat) (s : Store) : Prop :=
  s.curRef = snapRef ∧ snapRef < s.fresh ∧ s.nextRef < s.fresh ∧
    s.heap snapRef = L ∧ s.isDispatching = false

/-- Copy-on-write preserves the invariant and afterwards nextListeners is
guaranteed not to reference the snapshot cell, so subsequent mutation of
nextListeners cannot touch the snapshot. -/
theorem ensure_notifyInv (snapRef : Nat) (L : List Nat) (s : Store)
    (h : NotifyInv snapRef L s) :
    NotifyInv snapRef L (ensureCanMutateNextListeners s) ∧
    (ensureCanMutateNextListeners s).nextRef ≠ snapRef := by
  obtain ⟨hc, hsf, hnf, hh, hd⟩ := h
  unfold ensureCanMutateNextListeners
  by_cases he : s.nextRef = s.curRef
  · rw [if_pos he]
    refine ⟨⟨hc, ?_, ?_, ?_, hd⟩, ?_⟩
    · show snapRef < s.fresh + 1
      omega
    · show s.fresh < s.fresh + 1
      omega
    · show hupd s.heap s.fresh (s.heap s.curRef) snapRef = L
      rw [hupd_ne _ _ _ _ (by omega)]
      exact hh
    · show s.fresh ≠ snapRef
      omega
  · rw [if_neg he]
    refine ⟨⟨hc, hsf, hnf, hh, hd⟩, ?_⟩
    rw [hc] at he
    exact he

/-- A subscribe issued during notification preserves the invariant: the
mutation lands in a cell distinct from the snapshot. -/
theorem subscribe_notifyInv (snapRef : Nat) (L : List Nat) (l : Nat)
    (s : Store) (h : NotifyInv snapRef L s) :
    NotifyInv snapRef L (subscribe l s) := by
  obtain ⟨⟨hc, hsf, hnf, hh, hd⟩, hne⟩ := ensure_notifyInv snapRef L s h
  refine ⟨hc, hsf, hnf, ?_, hd⟩
  show hupd (ensureCanMutateNextListeners s).heap
      (ensureCanMutateNextListeners s).nextRef
      ((ensureCanMutateNextListeners s).heap
        (ensureCanMutateNextListeners s).nextRef ++ [l]) snapRef = L
  rw [hupd_ne _ _ _ _ (fun hq => hne hq.symm)]
  exact hh

/-- An unsubscribe issued during notification preserves the invariant. -/
theorem unsubscribe_notifyInv (snapRef : Nat) (L : List Nat) (l : Nat)
    (s : Store) (h : NotifyInv snapRef L s) :
    NotifyInv snapRef L (unsubscribe l true s).2 := by
  obtain ⟨⟨hc, hsf, hnf, hh, hd⟩, hne⟩ := ensure_notifyInv snapRef L s h
  refine ⟨hc, hsf, hnf, ?_, hd⟩
  show hupd (ensureCanMutateNextListeners s).heap
      (ensureCanMutateNextListeners s).nextRef
      (jsSpliceRemove
        ((ensureCanMutateNextListeners s).heap
          (ensureCanMutateNextListeners s).nextRef)
        (jsIndexOf
          ((ensureCanMutateNextListeners s).heap
            (ensureCanMutateNextListeners s).nextRef) l)) snapRef = L
  rw [hupd_ne _ _ _ _ (fun hq => hne hq.symm)]
  exact hh

/-- Any single listener-issued operation preserves the invariant. -/
theorem applyOp_notifyInv (snapRef : Nat) (L : List Nat) (o : ListenerOp)
    (s : Store) (h : NotifyInv snapRef L s) :
    NotifyInv snapRef L (applyOp o s) := by
  cases o with
  | sub l => exact subscribe_notifyInv snapRef L l s h
  | unsub l => exact unsubscribe_notifyInv snapRef L l s h

/-- A whole listener body preserves the invariant. -/
theorem runOps_notifyInv (snapRef : Nat) (L : List Nat) :
    ∀ (ops : List ListenerOp) (s : Store), NotifyInv snapRef L s →
      NotifyInv snapRef L (runOps ops s) := by
  intro ops
  induction ops with
  | nil => intro s h; exact h
  | cons o rest ih =>
    intro s h
    show NotifyInv snapRef L (runOps rest (applyOp o s))
    exact ih _ (applyOp_notifyInv snapRef L o s h)

/-- The notification loop invoked from position i with exact fuel invokes
precisely the listeners of the snapshot from position i on, in order, no
matter what the listeners subscribe or unsubscribe, and the invariant
still holds at exit. -/
theorem notifyLoop_spec (env : Nat → List ListenerOp) (snapRef : Nat)
    (L : List Nat) :
    ∀ (fuel i : Nat) (s : Store), NotifyInv snapRef L s →
      fuel = L.length - i →
      (notifyLoop env snapRef fuel i s).2.map Prod.fst = L.drop i ∧
      NotifyInv snapRef L (notifyLoop env snapRef fuel i s).1 := by
  intro fuel
  induction fuel with
  | zero =>
    intro i s hinv hf
    refine ⟨?_, hinv⟩
    have hle : L.length ≤ i := by omega
    simp [notifyLoop, List.drop_eq_nil_of_le hle]
  | succ fuel ih =>
    intro i s hinv hf
    have hlen : s.heap snapRef = L := hinv.2.2.2.1
    have hi : i < L.length := by omega
    have hi2 : i < (s.heap snapRef).length := by rw [hlen]; exact hi
    simp only [notifyLoop]
    rw [dif_pos hi2]
    obtain ⟨ht, hinv2⟩ :=
      ih (i + 1) (runOps (env ((s.heap snapRef).get ⟨i, hi2⟩)) s)
        (runOps_notifyInv snapRef L _ s hinv) (by omega)
    refine ⟨?_, hinv2⟩
    rw [List.map_cons, ht, ← hlen]
    exact List.getElem_cons_drop _ i hi2

/-- Core snapshot property of a successful dispatch: the action is
returned, the listeners invoked are exactly the pre-dispatch nextListeners
contents in order (for every possible listener behavior), currentListeners
is left referencing that snapshot cell, whose contents survive the whole
notification phase untouched, and the resulting store is well formed with
the guard clear. -/
theorem dispatch_snapshot (r : Reducer) (env : Nat → List ListenerOp)
    (a : JSVal) (s : Store) (ns : JSVal)
    (hwf : StoreWF s) (hg : s.isDispatching = false)
    (h1 : isPlainObject a = true) (h2 : actionTypeUndefined a = false)
    (hr : r s.currentState a = Except.ok ns) :
    (dispatch r env a s).result = Except.ok a ∧
    (dispatch r env a s).trace.map Prod.fst = s.heap s.nextRef ∧
    (dispatch r env a s).store.curRef = s.nextRef ∧
    (dispatch r env a s).store.heap s.nextRef = s.heap s.nextRef ∧
    StoreWF (dispatch r env a s).store ∧
    (dispatch r env a s).store.isDispatching = false := by
  have hd : dispatch r env a s =
      { store := (notifyLoop env s.nextRef (s.heap s.nextRef).length 0
          { s with currentState := ns, isDispatching := false
                   curRef := s.nextRef }).1
        result := Except.ok a
        trace := (notifyLoop env s.nextRef (s.heap s.nextRef).length 0
          { s with currentState := ns, isDispatching := false
                   curRef := s.nextRef }).2
        reducerCalls := [({ s with isDispatching := true }, a)] } := by
    simp [dispatch, h1, h2, hg, hr]
  have hinv : NotifyInv s.nextRef (s.heap s.nextRef)
      { s with currentState := ns, isDispatching := false
               curRef := s.nextRef } :=
    ⟨rfl, hwf.2, hwf.2, rfl, rfl⟩
  obtain ⟨ht, hinv2⟩ := notifyLoop_spec env s.nextRef (s.heap s.nextRef)
    (s.heap s.nextRef).length 0 _ hinv (by simp)
  rw [List.drop_zero] at ht
  rw [hd]
  refine ⟨rfl, ht, hinv2.1, hinv2.2.2.2.1, ?_, hinv2.2.2.2.2⟩
  refine ⟨?_, hinv2.2.2.1⟩
  rw [hinv2.1]
  exact hinv2.2.1

/-- Claim C2: a successful dispatch snapshots the listener list right
after the reducer call (currentListeners ends up referencing the
pre-dispatch nextListeners cell) and invokes exactly the listeners of
that snapshot, in insertion order, whatever subscriptions or
unsubscriptions the invoked listeners perform; the snapshot cell itself
is never modified by those listener actions (copy-on-write clones
nextListeners first), and the modified subscription list is exactly what
the next successful dispatch, taking its own snapshot, invokes. -/
theorem claim_C2 :
    ∀ (r : Reducer) (env : Nat → List ListenerOp) (a : JSVal) (s : Store)
      (ns : JSVal),
      StoreWF s → s.isDispatching = false → isPlainObject a = true →
      actionTypeUndefined a = false → r s.currentState a = Except.ok ns →
      (dispatch r env a s).result = Except.ok a ∧
      (dispatch r env a s).trace.map Prod.fst = s.heap s.nextRef ∧
      (dispatch r env a s).store.curRef = s.nextRef ∧
      (dispatch r env a s).store.heap s.nextRef = s.heap s.nextRef ∧
      (∀ (r2 : Reducer) (env2 : Nat → List ListenerOp) (a2 ns2 : JSVal),
        isPlainObject a2 = true → actionTypeUndefined a2 = false →
        r2 (dispatch r env a s).store.currentState a2 = Except.ok ns2 →
        (dispatch r2 env2 a2 (dispatch r env a s).store).trace.map Prod.fst =
          (dispatch r env a s).store.heap
            (dispatch r env a s).store.nextRef) := by
  intro r env a s ns hwf hg h1 h2 hr
  obtain ⟨hres, htr, hcur, hheap, hwf2, hg2⟩ :=
    dispatch_snapshot r env a s ns hwf hg h1 h2 hr
  refine ⟨hres, htr, hcur, hheap, ?_⟩
  intro r2 env2 a2 ns2 h1b h2b hrb
  exact (dispatch_snapshot r2 env2 a2 _ ns2 hwf2 hg2 h1b h2b hrb).2.1

/-- A store with two subscribed listeners, ids 1 and 2. -/
def twoListenerStore : Store :=
  { heap := fun j => if j = 0 then [1, 2] else [], fresh := 1, curRef := 0
    nextRef := 0, currentState := JSVal.num 0, isDispatching := false }

/-- Listener behavior for the claim C2 witness: listener 1 subscribes a
new listener 3 during notification, listener 2 unsubscribes listener 1. -/
def witnessEnv : Nat → List ListenerOp := fun l =>
  if l = 1 then [ListenerOp.sub 3]
  else if l = 2 then [ListenerOp.unsub 1]
  else []

/-- Witness for claim C2: with listeners [1, 2] subscribed, where listener
1 subscribes 3 and listener 2 unsubscribes 1 during notification, the
dispatch still invokes exactly [1, 2], and the next dispatch invokes
exactly the updated list [2, 3]. -/
theorem claim_C2_witness :
    (dispatch counterReducer witnessEnv incAction twoListenerStore).trace.map
      Prod.fst = [1, 2] ∧
    (dispatch counterReducer (fun _ => []) incAction
        (dispatch counterReducer witnessEnv incAction
          twoListenerStore).store).trace.map Prod.fst = [2, 3] := by
  have h := claim_C2 counterReducer witnessEnv incAction twoListenerStore
    (JSVal.num 1) ⟨by decide, by decide⟩ rfl rfl rfl rfl
  refine ⟨h.2.1, ?_⟩
  have h2 := h.2.2.2.2 counterReducer (fun _ => []) incAction (JSVal.num 2)
    rfl rfl ?_
  · rw [h2]
    rfl
  · rfl

/-- Reading the updated cell gives the written list. -/
theorem hupd_self (h : Nat → List Nat) (i : Nat) (v : List Nat) :
    hupd h i v i = v := by
  unfold hupd
  rw [if_pos rfl]

/-- Copy-on-write preserves the contents seen through nextListeners. -/
theorem ensure_content (s : Store) :
    (ensureCanMutateNextListeners s).heap
      (ensureCanMutateNextListeners s).nextRef = s.heap s.nextRef := by
  unfold ensureCanMutateNextListeners
  by_cases he : s.nextRef = s.curRef
  · rw [if_pos he]
    show hupd s.heap s.fresh (s.heap s.curRef) s.fresh = s.heap s.nextRef
    rw [hupd_self, he]
  · rw [if_neg he]

/-- Contents of nextListeners after a subscribe: the old contents with the
listener appended. -/
theorem subscribe_content (l : Nat) (s : Store) :
    (subscribe l s).heap (subscribe l s).nextRef =
      s.heap s.nextRef ++ [l] := by
  show hupd (ensureCanMutateNextListeners s).heap
      (ensureCanMutateNextListeners s).nextRef
      ((ensureCanMutateNextListeners s).heap
        (ensureCanMutateNextListeners s).nextRef ++ [l])
      (ensureCanMutateNextListeners s).nextRef = s.heap s.nextRef ++ [l]
  rw [hupd_self, ensure_content]

/-- Contents of nextListeners after a live unsubscribe call: splice at the
index found for the listener. -/
theorem unsubscribe_content (l : Nat) (s : Store) :
    (unsubscribe l true s).2.heap (unsubscribe l true s).2.nextRef =
      jsSpliceRemove (s.heap s.nextRef)
        (jsIndexOf (s.heap s.nextRef) l) := by
  show hupd (ensureCanMutateNextListeners s).heap
      (ensureCanMutateNextListeners s).nextRef
      (jsSpliceRemove
        ((ensureCanMutateNextListeners s).heap
          (ensureCanMutateNextListeners s).nextRef)
        (jsIndexOf
          ((ensureCanMutateNextListeners s).heap
            (ensureCanMutateNextListeners s).nextRef) l))
      (ensureCanMutateNextListeners s).nextRef =
      jsSpliceRemove (s.heap s.nextRef) (jsIndexOf (s.heap s.nextRef) l)
  rw [hupd_self, ensure_content]

/-- For a present element, indexOf is within bounds and non-negative. -/
theorem jsIndexOf_mem_bounds :
    ∀ (lst : List Nat) (l : Nat), l ∈ lst →
      0 ≤ jsIndexOf lst l ∧ jsIndexOf lst l < (lst.length : Int) := by
  intro lst
  induction lst with
  | nil => intro l h; cases h
  | cons x xs ih =>
    intro l h
    by_cases hx : x = l
    · simp only [jsIndexOf, if_pos hx]
      constructor
      · omega
      · simp only [List.length_cons]
        push_cast
        omega
    · have hmem : l ∈ xs := by
        cases h with
        | head => exact absurd rfl hx
        | tail _ h2 => exact h2
      obtain ⟨h1, h2⟩ := ih l hmem
      simp only [jsIndexOf, if_neg hx]
      rw [if_neg (by omega)]
      constructor
      · omega
      · simp only [List.length_cons]
        push_cast
        omega

/-- Splicing one element at the index found for a present listener removes
exactly its first occurrence. -/
theorem jsSpliceRemove_at_indexOf :
    ∀ (lst : List Nat) (l : Nat), l ∈ lst →
      jsSpliceRemove lst (jsIndexOf lst l) = lst.erase l := by
  intro lst
  induction lst with
  | nil => intro l h; cases h
  | cons x xs ih =>
    intro l h
    by_cases hx : x = l
    · subst hx
      have hidx : jsIndexOf (x :: xs) x = 0 := by simp [jsIndexOf]
      rw [hidx, List.erase_cons_head]
      simp [jsSpliceRemove]
    · have hmem : l ∈ xs := by
        cases h with
        | head => exact absurd rfl hx
        | tail _ h2 => exact h2
      obtain ⟨h1, h2⟩ := jsIndexOf_mem_bounds xs l hmem
      have hidx : jsIndexOf (x :: xs) l = jsIndexOf xs l + 1 := by
        simp only [jsIndexOf, if_neg hx]
        rw [if_neg (by omega)]
      rw [hidx]
      have herase : (x :: xs).erase l = x :: xs.erase l := by
        rw [List.erase_cons_tail]
        simp [hx]
      rw [herase, ← ih l hmem]
      unfold jsSpliceRemove
      rw [if_neg (by omega : ¬jsIndexOf xs l + 1 < 0),
        if_neg (by omega : ¬jsIndexOf xs l < 0)]
      have htn : (jsIndexOf xs l + 1).toNat = (jsIndexOf xs l).toNat + 1 := by
        omega
      have hlen : (jsIndexOf xs l).toNat < xs.length := by omega
      rw [htn]
      have hmin1 : min ((jsIndexOf xs l).toNat + 1) (x :: xs).length =
          (jsIndexOf xs l).toNat + 1 := by
        simp only [List.length_cons]
        omega
      have hmin2 : min (jsIndexOf xs l).toNat xs.length =
          (jsIndexOf xs l).toNat := by omega
      rw [hmin1, hmin2]
      simp only [List.take_succ_cons, List.drop_succ_cons, List.cons_append]

/-- Claim C9: subscribing a listener twice raises its registration count in
nextListeners by two; one invocation of an unsubscribe closure then lowers
it by exactly one (so from a store where it was unregistered it ends
registered exactly once); the closure flag is consumed, and invoking the
same closure a second time is a no-op returning the store unchanged. -/
theorem claim_C9 :
    ∀ (s : Store) (l : Nat),
      ((subscribe l (subscribe l s)).heap
        (subscribe l (subscribe l s)).nextRef).count l =
          (s.heap s.nextRef).count l + 2 ∧
      ((unsubscribe l true (subscribe l (subscribe l s))).2.heap
        (unsubscribe l true (subscribe l (subscribe l s))).2.nextRef).count l =
          (s.heap s.nextRef).count l + 1 ∧
      (unsubscribe l true (subscribe l (subscribe l s))).1 = false ∧
      unsubscribe l false (unsubscribe l true (subscribe l (subscribe l s))).2 =
        (false, (unsubscribe l true (subscribe l (subscribe l s))).2) ∧
      ((s.heap s.nextRef).count l = 0 →
        ((unsubscribe l true (subscribe l (subscribe l s))).2.heap
          (unsubscribe l true
            (subscribe l (subscribe l s))).2.nextRef).count l = 1) := by
  intro s l
  have hs2 : (subscribe l (subscribe l s)).heap
      (subscribe l (subscribe l s)).nextRef =
      s.heap s.nextRef ++ [l] ++ [l] := by
    rw [subscribe_content, subscribe_content]
  have hmem : l ∈ (subscribe l (subscribe l s)).heap
      (subscribe l (subscribe l s)).nextRef := by
    rw [hs2]
    simp
  have hu : (unsubscribe l true (subscribe l (subscribe l s))).2.heap
      (unsubscribe l true (subscribe l (subscribe l s))).2.nextRef =
      (s.heap s.nextRef ++ [l] ++ [l]).erase l := by
    rw [unsubscribe_content, jsSpliceRemove_at_indexOf _ _ hmem, hs2]
  have hcount2 : ((subscribe l (subscribe l s)).heap
      (subscribe l (subscribe l s)).nextRef).count l =
      (s.heap s.nextRef).count l + 2 := by
    rw [hs2]
    simp [List.count_append]
  have hcount1 : ((unsubscribe l true (subscribe l (subscribe l s))).2.heap
      (unsubscribe l true (subscribe l (subscribe l s))).2.nextRef).count l =
      (s.heap s.nextRef).count l + 1 := by
    rw [hu, List.count_erase_self]
    simp [List.count_append]
  refine ⟨hcount2, hcount1, rfl, rfl, ?_⟩
  intro h0
  rw [hcount1, h0]

/-- Witness for claim C9 on the empty initial store with listener id 5:
after two subscriptions and one unsubscribe invocation the listener is
registered exactly once. -/
theorem claim_C9_witness :
    ((unsubscribe 5 true (subscribe 5 (subscribe 5
        (initialStore JSVal.undef)))).2.heap
      (unsubscribe 5 true (subscribe 5 (subscribe 5
        (initialStore JSVal.undef)))).2.nextRef).count 5 = 1 :=
  (claim_C9 (initialStore JSVal.undef) 5).2.2.2.2 rfl

/-- RVal models a JavaScript value as seen by the reducer-composition
algorithm, which only ever compares values strictly (===) and against
undefined: either the absent sentinel, or a defined value identified by
its reference (objects) or primitive identity. -/
inductive RVal where
  | undef
  | ref (id : Nat)
deriving DecidableEq

/-- WState models the whole-state record passed to the composed reducer:
an object identity plus its fields (a field holding the absent sentinel
and a missing field both read as undefined, as in JavaScript). -/
structure WState where
  oid : Nat
  fields : List (String × RVal)

/-- Property read state[key] performed by the combination loop. -/
def lookupW : List (String × RVal) → String → RVal
  | [], _ => RVal.undef
  | (k, v) :: rest, key => if k = key then v else lookupW rest key

/-- The two failures of assertReducerShape, each carrying the offending
key; the corresponding thrown messages (lines 64-70 and 76-83 of
combineReducers.js) name exactly this key. -/
inductive ShapeError where
  | initUndefined (key : String)
  | probeUndefined (key : String)
deriving DecidableEq

/-- The key named by a shape-assertion error message. -/
def shapeErrorKey : ShapeError → String
  | ShapeError.initUndefined k => k
  | ShapeError.probeUndefined k => k

/-- Lines 58-86: assertReducerShape calls every surviving sub-reducer with
an undefined prior state and the INIT action, then with an undefined
prior state and a randomly typed probe action; the first reducer
answering undefined makes it throw the matching error. Actions are a type
parameter (the algorithm only passes them through), and the probe action
is likewise a parameter since its type is freshly random per composition. -/
def assertReducerShape {A : Type} (initA probeA : A) :
    List (String × (RVal → A → RVal)) → Option ShapeError
  | [] => none
  | (k, r) :: rest =>
    if r RVal.undef initA = RVal.undef then
      some (ShapeError.initUndefined k)
    else if r RVal.undef probeA = RVal.undef then
      some (ShapeError.probeUndefined k)
    else assertReducerShape initA probeA rest

/-- The closure state captured by the reducer that combineReducers
returns: the surviving sub-reducers in key order and the stored
shape-assertion error, if any. -/
structure Combined (A : Type) where
  finalReducers : List (String × (RVal → A → RVal))
  shapeAssertionError : Option ShapeError

/-- Lines 121-150: combineReducers keeps the function-valued entries (a
none value models a non-function entry, which is dropped; the associated
non-production warning is diagnostic output only), then runs the shape
assertion, storing rather than throwing its error. The non-production
unexpected-key warnings (lines 16-56) are likewise diagnostics with no
effect on results and are not modelled. -/
def combineReducers {A : Type} (initA probeA : A)
    (reducers : List (String × Option (RVal → A → RVal))) : Combined A :=
  let finalReducers :=
    reducers.filterMap (fun kv => kv.2.map (fun r => (kv.1, r)))
  { finalReducers := finalReducers
    shapeAssertionError := assertReducerShape initA probeA finalReducers }

/-- Errors thrown by the composed reducer: the re-raised stored
shape-assertion error, or the per-key error thrown when a sub-reducer
returns undefined during combination (its message names the key). -/
inductive CombError where
  | shapeError (e : ShapeError)
  | undefinedPart (key : String)
deriving DecidableEq

/-- What the composed reducer returns: the incoming state value itself
(the hasChanged = false branch at line 177 returns the state argument by
reference), or the freshly built nextState object with the given fields. -/
inductive CombOut where
  | original
  | freshObj (fields : List (String × RVal))
deriving DecidableEq

/-- Lines 163-176: the per-invocation loop of combination, folding over
the surviving sub-reducers while building nextState and tracking
hasChanged through strict comparison of each new part with its prior
part. -/
def combinationLoop {A : Type} (stateFields : List (String × RVal))
    (act : A) :
    List (String × (RVal → A → RVal)) → Bool → List (String × RVal) →
      Except CombError (Bool × List (String × RVal))
  | [], hasChanged, acc => Except.ok (hasChanged, acc)
  | (k, r) :: rest, hasChanged, acc =>
    let previousStateForKey := lookupW stateFields k
    let nextStateForKey := r previousStateForKey act
    if nextStateForKey = RVal.undef then
      Except.error (CombError.undefinedPart k)
    else
      combinationLoop stateFields act rest
        (hasChanged || decide (nextStateForKey ≠ previousStateForKey))
        (acc ++ [(k, nextStateForKey)])

/-- Lines 151-178: the composed reducer combination. It first re-raises
the stored shape-assertion error, then runs the loop, and returns the
original state when no part changed, the freshly built object otherwise. -/
def combination {A : Type} (c : Combined A) (S : WState) (act : A) :
    Except CombError CombOut :=
  match c.shapeAssertionError with
  | some e => Except.error (CombError.shapeError e)
  | none =>
    match combinationLoop S.fields act c.finalReducers false [] with
    | Except.error e => Except.error e
    | Except.ok (hasChanged, parts) =>
      Except.ok
        (if hasChanged then CombOut.freshObj parts else CombOut.original)

/-- When every surviving sub-reducer returns a defined part, the
combination loop succeeds, the parts are the computed parts in key order,
and hasChanged is the disjunction of the per-key strict inequalities. -/
theorem combinationLoop_spec {A : Type} (stateFields : List (String × RVal))
    (act : A) :
    ∀ (rs : List (String × (RVal → A → RVal))) (hc : Bool)
      (acc : List (String × RVal)),
      (∀ kr ∈ rs, kr.2 (lookupW stateFields kr.1) act ≠ RVal.undef) →
      combinationLoop stateFields act rs hc acc =
        Except.ok
          (hc || rs.any (fun kr =>
            decide (kr.2 (lookupW stateFields kr.1) act ≠
              lookupW stateFields kr.1)),
          acc ++ rs.map (fun kr =>
            (kr.1, kr.2 (lookupW stateFields kr.1) act))) := by
  intro rs
  induction rs with
  | nil =>
    intro hc acc hdef
    simp [combinationLoop]
  | cons kr rest ih =>
    intro hc acc hdef
    obtain ⟨k, r⟩ := kr
    have hkr : r (lookupW stateFields k) act ≠ RVal.undef :=
      hdef (k, r) (List.mem_cons_self _ _)
    simp only [combinationLoop]
    rw [if_neg hkr]
    rw [ih _ _ (fun x hx => hdef x (List.mem_cons_of_mem _ hx))]
    simp [List.any_cons, Bool.or_assoc, List.append_assoc]

/-- Whenever the combination loop succeeds, the keys of the accumulated
parts are the accumulator keys followed by the sub-reducer keys. -/
theorem combinationLoop_keys {A : Type} (stateFields : List (String × RVal))
    (act : A) :
    ∀ (rs : List (String × (RVal → A → RVal))) (hc : Bool)
      (acc : List (String × RVal)) (b : Bool) (parts : List (String × RVal)),
      combinationLoop stateFields act rs hc acc = Except.ok (b, parts) →
      parts.map Prod.fst = acc.map Prod.fst ++ rs.map Prod.fst := by
  intro rs
  induction rs with
  | nil =>
    intro hc acc b parts h
    simp only [combinationLoop, Except.ok.injEq, Prod.mk.injEq] at h
    rw [← h.2]
    simp
  | cons kr rest ih =>
    intro hc acc b parts h
    obtain ⟨k, r⟩ := kr
    simp only [combinationLoop] at h
    by_cases hu : r (lookupW stateFields k) act = RVal.undef
    · rw [if_pos hu] at h
      cases h
    · rw [if_neg hu] at h
      rw [ih _ _ _ _ h]
      simp

/-- If some surviving sub-reducer answers undefined on the INIT probe or
on the unknown-action probe, assertReducerShape reports an error whose key
belongs to such an offending sub-reducer. -/
theorem assertReducerShape_some {A : Type} (initA probeA : A) :
    ∀ (rs : List (String × (RVal → A → RVal))),
      (∃ kr ∈ rs, kr.2 RVal.undef initA = RVal.undef ∨
        kr.2 RVal.undef probeA = RVal.undef) →
      ∃ e, assertReducerShape initA probeA rs = some e ∧
        ∃ kr ∈ rs, kr.1 = shapeErrorKey e ∧
          (kr.2 RVal.undef initA = RVal.undef ∨
            kr.2 RVal.undef probeA = RVal.undef) := by
  intro rs
  induction rs with
  | nil =>
    intro h
    obtain ⟨kr, hm, _⟩ := h
    cases hm
  | cons kr rest ih =>
    intro h
    obtain ⟨k, r⟩ := kr
    by_cases h1 : r RVal.undef initA = RVal.undef
    · refine ⟨ShapeError.initUndefined k, ?_,
        ⟨(k, r), List.mem_cons_self _ _, rfl, Or.inl h1⟩⟩
      simp only [assertReducerShape]
      rw [if_pos h1]
    · by_cases h2 : r RVal.undef probeA = RVal.undef
      · refine ⟨ShapeError.probeUndefined k, ?_,
          ⟨(k, r), List.mem_cons_self _ _, rfl, Or.inr h2⟩⟩
        simp only [assertReducerShape]
        rw [if_neg h1, if_pos h2]
      · have hrest : ∃ kr ∈ rest, kr.2 RVal.undef initA = RVal.undef ∨
            kr.2 RVal.undef probeA = RVal.undef := by
          obtain ⟨kr2, hm, hoff⟩ := h
          cases hm with
          | head =>
            rcases hoff with ho | ho
            · exact absurd ho h1
            · exact absurd ho h2
          | tail _ hm2 => exact ⟨kr2, hm2, hoff⟩
        obtain ⟨e, he, kr2, hm, hke, hoff⟩ := ih hrest
        refine ⟨e, ?_, ⟨kr2, List.mem_cons_of_mem _ hm, hke, hoff⟩⟩
        simp only [assertReducerShape]
        rw [if_neg h1, if_neg h2]
        exact he

/-- Claim C7: if any surviving sub-reducer returns undefined for an
undefined prior state under the INIT action or under the probe action,
then composition itself still returns (the error is caught and stored),
the stored shape-assertion error names the key of such an offending
sub-reducer, and every invocation of the composed reducer, on any state
and any action, throws exactly that stored error. -/
theorem claim_C7 :
    ∀ (A : Type) (initA probeA : A)
      (reducers : List (String × Option (RVal → A → RVal))),
      (∃ kr ∈ (combineReducers initA probeA reducers).finalReducers,
        kr.2 RVal.undef initA = RVal.undef ∨
          kr.2 RVal.undef probeA = RVal.undef) →
      ∃ e, (combineReducers initA probeA reducers).shapeAssertionError =
          some e ∧
        (∃ kr ∈ (combineReducers initA probeA reducers).finalReducers,
          kr.1 = shapeErrorKey e ∧
          (kr.2 RVal.undef initA = RVal.undef ∨
            kr.2 RVal.undef probeA = RVal.undef)) ∧
        ∀ (S : WState) (act : A),
          combination (combineReducers initA probeA reducers) S act =
            Except.error (CombError.shapeError e) := by
  intro A initA probeA reducers hoff
  obtain ⟨e, he, hwit⟩ := assertReducerShape_some initA probeA _ hoff
  have he2 : (combineReducers initA probeA reducers).shapeAssertionError =
      some e := he
  refine ⟨e, he2, hwit, ?_⟩
  intro S act
  simp only [combination, he2]

/-- A sub-reducer violating the shape assertion by always returning
undefined. -/
def badSub : RVal → String → RVal := fun _ _ => RVal.undef

/-- A well-behaved sub-reducer returning a fixed initial value. -/
def goodSub : RVal → String → RVal := fun s _ =>
  match s with
  | RVal.undef => RVal.ref 1
  | v => v

/-- Input mapping for the claim C7 witness: one offending sub-reducer and
one well-behaved one. -/
def badReducers : List (String × Option (RVal → String → RVal)) :=
  [("bad", some badSub), ("good", some goodSub)]

/-- Witness for claim C7 on a concrete mapping: the stored error is
reported and every invocation of the composed reducer throws it. -/
theorem claim_C7_witness :
    ∃ e, (combineReducers "INIT" "PROBE" badReducers).shapeAssertionError =
        some e ∧
      (∃ kr ∈ (combineReducers "INIT" "PROBE" badReducers).finalReducers,
        kr.1 = shapeErrorKey e ∧
        (kr.2 RVal.undef "INIT" = RVal.undef ∨
          kr.2 RVal.undef "PROBE" = RVal.undef)) ∧
      ∀ (S : WState) (act : String),
        combination (combineReducers "INIT" "PROBE" badReducers) S act =
          Except.error (CombError.shapeError e) :=
  claim_C7 String "INIT" "PROBE" badReducers
    ⟨("bad", badSub), List.mem_cons_self _ _, Or.inl rfl⟩

/-- With no stored shape error and all computed parts defined, the
composed reducer returns the original state exactly when no part changed
by strict comparison, and otherwise the freshly built object of computed
parts. -/
theorem combination_cases {A : Type} (c : Combined A) (S : WState) (X : A)
    (hnone : c.shapeAssertionError = none)
    (hdef : ∀ kr ∈ c.finalReducers,
      kr.2 (lookupW S.fields kr.1) X ≠ RVal.undef) :
    combination c S X = Except.ok
      (if c.finalReducers.any (fun kr =>
          decide (kr.2 (lookupW S.fields kr.1) X ≠ lookupW S.fields kr.1))
        then CombOut.freshObj (c.finalReducers.map fun kr =>
          (kr.1, kr.2 (lookupW S.fields kr.1) X))
        else CombOut.original) := by
  simp only [combination, hnone]
  rw [combinationLoop_spec S.fields X c.finalReducers false [] hdef]
  simp only [Bool.false_or, List.nil_append]

/-- Claim C6 as amended: over a composition whose shape assertion
succeeded, for a state and an action under which every surviving
sub-reducer returns a defined (non-undefined) part: if every surviving
sub-reducer returns its input part unchanged by reference, the composed
reducer returns the original state value itself, and if some sub-reducer
returns a referentially new part, it returns the freshly built object
mapping the surviving keys to their computed parts. -/
theorem claim_C6_amended :
    ∀ (A : Type) (initA probeA : A)
      (reducers : List (String × Option (RVal → A → RVal)))
      (S : WState) (X : A),
      (combineReducers initA probeA reducers).shapeAssertionError = none →
      (∀ kr ∈ (combineReducers initA probeA reducers).finalReducers,
        kr.2 (lookupW S.fields kr.1) X ≠ RVal.undef) →
      ((∀ kr ∈ (combineReducers initA probeA reducers).finalReducers,
          kr.2 (lookupW S.fields kr.1) X = lookupW S.fields kr.1) →
        combination (combineReducers initA probeA reducers) S X =
          Except.ok CombOut.original) ∧
      ((∃ kr ∈ (combineReducers initA probeA reducers).finalReducers,
          kr.2 (lookupW S.fields kr.1) X ≠ lookupW S.fields kr.1) →
        combination (combineReducers initA probeA reducers) S X =
          Except.ok (CombOut.freshObj
            ((combineReducers initA probeA reducers).finalReducers.map
              fun kr => (kr.1, kr.2 (lookupW S.fields kr.1) X)))) := by
  intro A initA probeA reducers S X hnone hdef
  constructor
  · intro hsame
    have hani : (combineReducers initA probeA reducers).finalReducers.any
        (fun kr => decide (kr.2 (lookupW S.fields kr.1) X ≠
          lookupW S.fields kr.1)) = false := by
      rw [List.any_eq_false]
      intro kr hm
      simp [hsame kr hm]
    rw [combination_cases _ S X hnone hdef, hani]
    simp
  · intro hex
    obtain ⟨kr, hm, hne⟩ := hex
    have hani : (combineReducers initA probeA reducers).finalReducers.any
        (fun kr => decide (kr.2 (lookupW S.fields kr.1) X ≠
          lookupW S.fields kr.1)) = true := by
      rw [List.any_eq_true]
      exact ⟨kr, hm, by simpa using hne⟩
    rw [combination_cases _ S X hnone hdef, hani]
    simp

/-- A sub-reducer that passes the shape assertion yet hands back its
(possibly undefined) input part unchanged for the WEIRD action. -/
def weirdSub : RVal → String → RVal := fun s t =>
  if t = "WEIRD" then s
  else
    match s with
    | RVal.undef => RVal.ref 0
    | v => v

/-- The mapping of sub-reducers for the claim C6 counterexample. -/
def weirdReducers : List (String × Option (RVal → String → RVal)) :=
  [("a", some weirdSub)]

/-- An empty whole-state record. -/
def emptyWState : WState := { oid := 0, fields := [] }

/-- Claim C6 counterexample: with the single surviving sub-reducer
weirdSub, the empty state and the WEIRD action, every surviving
sub-reducer returns its input part (undefined) by reference, and the
shape assertion passed, yet the composed reducer does not return the
original state: it throws the per-key undefined-state error, because the
undefined check at line 170 precedes the hasChanged accounting. -/
theorem claim_C6_counterexample :
    (∀ kr ∈ (combineReducers "INIT" "PROBE" weirdReducers).finalReducers,
      kr.2 (lookupW emptyWState.fields kr.1) "WEIRD" =
        lookupW emptyWState.fields kr.1) ∧
    (combineReducers "INIT" "PROBE" weirdReducers).shapeAssertionError =
      none ∧
    combination (combineReducers "INIT" "PROBE" weirdReducers) emptyWState
      "WEIRD" = Except.error (CombError.undefinedPart "a") := by
  refine ⟨?_, rfl, rfl⟩
  intro kr hm
  have hm2 : kr = ("a", weirdSub) := List.mem_singleton.mp hm
  subst hm2
  rfl

/-- The sub-reducer for the claim C6 witness: referentially stable on
defined parts. -/
def stableSub : RVal → String → RVal := fun s _ =>
  match s with
  | RVal.undef => RVal.ref 1
  | v => v

/-- The mapping of sub-reducers for the claim C6 witness. -/
def stableReducers : List (String × Option (RVal → String → RVal)) :=
  [("k", some stableSub)]

/-- A whole-state record with a defined part for key k. -/
def stableWState : WState := { oid := 0, fields := [("k", RVal.ref 5)] }

/-- Witness for the amended claim C6: a no-op action on a defined part
makes the composed reducer return the original state itself. -/
theorem claim_C6_witness :
    combination (combineReducers "INIT" "PROBE" stableReducers)
      stableWState "NOOP" = Except.ok CombOut.original := by
  refine (claim_C6_amended String "INIT" "PROBE" stableReducers stableWState
    "NOOP" rfl ?_).1 ?_
  · intro kr hm
    have hm2 : kr = ("k", stableSub) := List.mem_singleton.mp hm
    subst hm2
    decide
  · intro kr hm
    have hm2 : kr = ("k", stableSub) := List.mem_singleton.mp hm
    subst hm2
    rfl

/-- Whenever the composed reducer returns a freshly built object, the keys
of that object are exactly the surviving sub-reducer keys in order. -/
theorem combination_freshObj_keys {A : Type} (c : Combined A) (S : WState)
    (X : A) (parts : List (String × RVal))
    (h : combination c S X = Except.ok (CombOut.freshObj parts)) :
    parts.map Prod.fst = c.finalReducers.map Prod.fst := by
  unfold combination at h
  cases hcase : c.shapeAssertionError with
  | some e =>
    rw [hcase] at h
    cases h
  | none =>
    rw [hcase] at h
    cases hloop : combinationLoop S.fields X c.finalReducers false [] with
    | error e =>
      rw [hloop] at h
      cases h
    | ok p =>
      obtain ⟨hc2, parts0⟩ := p
      rw [hloop] at h
      cases hc2 with
      | false => simp at h
      | true =>
        simp only [if_true, Except.ok.injEq, CombOut.freshObj.injEq] at h
        rw [← h]
        have hk := combinationLoop_keys S.fields X c.finalReducers false []
          true parts0 hloop
        simpa using hk

/-- Claim C10: whenever at least one sub-reducer produces a referentially
new part (with the composition shape-sound and all computed parts
defined), the composed reducer builds a fresh object, and the keys of any
fresh result are exactly the surviving sub-reducer keys, so a key of the
incoming state with no corresponding sub-reducer is absent from the fresh
result; only the unchanged branch, which returns the original state value
itself, preserves such extra keys. -/
theorem claim_C10 :
    ∀ (A : Type) (initA probeA : A)
      (reducers : List (String × Option (RVal → A → RVal)))
      (S : WState) (X : A),
      (∀ (parts : List (String × RVal)),
        combination (combineReducers initA probeA reducers) S X =
          Except.ok (CombOut.freshObj parts) →
        parts.map Prod.fst =
          (combineReducers initA probeA reducers).finalReducers.map
            Prod.fst) ∧
      (∀ (parts : List (String × RVal)) (k : String),
        combination (combineReducers initA probeA reducers) S X =
          Except.ok (CombOut.freshObj parts) →
        k ∉ (combineReducers initA probeA reducers).finalReducers.map
          Prod.fst →
        k ∉ parts.map Prod.fst) ∧
      ((combineReducers initA probeA reducers).shapeAssertionError = none →
        (∀ kr ∈ (combineReducers initA probeA reducers).finalReducers,
          kr.2 (lookupW S.fields kr.1) X ≠ RVal.undef) →
        (∃ kr ∈ (combineReducers initA probeA reducers).finalReducers,
          kr.2 (lookupW S.fields kr.1) X ≠ lookupW S.fields kr.1) →
        ∃ parts,
          combination (combineReducers initA probeA reducers) S X =
            Except.ok (CombOut.freshObj parts) ∧
          parts.map Prod.fst =
            (combineReducers initA probeA reducers).finalReducers.map
              Prod.fst) := by
  intro A initA probeA reducers S X
  refine ⟨?_, ?_, ?_⟩
  · intro parts h
    exact combination_freshObj_keys _ S X parts h
  · intro parts k h hnot
    rw [combination_freshObj_keys _ S X parts h]
    exact hnot
  · intro hnone hdef hex
    obtain ⟨kr, hm, hne⟩ := hex
    have hani : (combineReducers initA probeA reducers).finalReducers.any
        (fun kr => decide (kr.2 (lookupW S.fields kr.1) X ≠
          lookupW S.fields kr.1)) = true := by
      rw [List.any_eq_true]
      exact ⟨kr, hm, by simpa using hne⟩
    refine ⟨(combineReducers initA probeA reducers).finalReducers.map
      (fun kr => (kr.1, kr.2 (lookupW S.fields kr.1) X)), ?_, ?_⟩
    · rw [combination_cases _ S X hnone hdef, hani]
      simp
    · rw [List.map_map]
      rfl

/-- A sub-reducer producing a referentially new part on every action. -/
def changingSub : RVal → String → RVal := fun _ _ => RVal.ref 9

/-- Input mapping for the claim C10 witness: one surviving sub-reducer
plus one dropped non-function entry. -/
def changingReducers : List (String × Option (RVal → String → RVal)) :=
  [("a", some changingSub), ("b", none)]

/-- A whole-state record carrying an extra key with no sub-reducer. -/
def extraWState : WState :=
  { oid := 0, fields := [("a", RVal.ref 1), ("extra", RVal.ref 2)] }

/-- Witness for claim C10: when the part for key a changes, the fresh
result has exactly the surviving key a, and the extra key of the input
state is absent from it. -/
theorem claim_C10_witness :
    ([("a", RVal.ref 9)] : List (String × RVal)).map Prod.fst =
      (combineReducers "INIT" "PROBE" changingReducers).finalReducers.map
        Prod.fst ∧
    "extra" ∉ ([("a", RVal.ref 9)] : List (String × RVal)).map Prod.fst := by
  have h := claim_C10 String "INIT" "PROBE" changingReducers extraWState "X"
  exact ⟨h.1 [("a", RVal.ref 9)] rfl,
    h.2.1 [("a", RVal.ref 9)] "extra" rfl (by decide)⟩
